import Mathlib

/- Shallow embedding of the hotel recommendation engine of this repository
(`backend/app/models/knn_recommender.py`, `backend/app/models/similarity.py`,
and the `/recommend` route of `backend/app/routes/recommendations.py`).

Modelling conventions:
* Python floats are modelled as rationals (`ℚ`); `round(x, 2)` (and pandas
  `DataFrame.round(2)`) round half to even, which `round2` reproduces.
* `np.log` and the cosine distances computed by scikit-learn inside
  `NearestNeighbors.kneighbors` take irrational values, so they are
  function-valued fields (`log`, `cosDist`) of the recommender state; a
  concrete instantiation supplies the exact values these functions take on
  the inputs of interest.  Likewise the square root used inside
  `sklearn.cosine_similarity`, `np.corrcoef` and `np.sqrt` is an explicit
  parameter of the similarity functions of `similarity.py`.
* `pandas.pivot_table` orders the user-item matrix rows by ascending
  `user_id` and columns by ascending `hotel_id`; `groupby` orders group keys
  ascending; Python dicts preserve insertion order; `sorted` and pandas
  `nlargest` are stable, and CPython set iteration over the small integer
  hotel ids follows ascending order.  Ties are therefore modelled
  lexicographically (primary key first, then ascending id).
* Python dictionaries are modelled as association lists, `{hotel_id: rating}`
  maps as `List (ℕ × ℚ)`.
* The only modelled internal failure is the one scikit-learn actually raises
  on this code path: `kneighbors` with `n_neighbors = min(k, n_users - 1) = 0`
  (fewer than two users in the matrix, or `k = 0`).  Fallible operations
  return `Except`.
-/

namespace HotelRec

/-- Python `round(x, 2)`: round to two decimal places, halves to even. -/
def round2 (x : ℚ) : ℚ :=
  let y : ℚ := 100 * x
  let f : ℤ := ⌊y⌋
  let r : ℚ := y - (f : ℚ)
  (if r < 1/2 then (f : ℚ)
   else if 1/2 < r then ((f + 1 : ℤ) : ℚ)
   else if 2 ∣ f then (f : ℚ) else ((f + 1 : ℤ) : ℚ)) / 100

/-- Dictionary lookup on an association list (first binding wins, as in a
Python dict, whose keys are unique). -/
def alookup : List (ℕ × ℚ) → ℕ → Option ℚ
  | [], _ => none
  | p :: ps, a => if p.1 = a then some p.2 else alookup ps a

/-- The keys of a ratings dictionary. -/
def keys (q : List (ℕ × ℚ)) : List ℕ := q.map Prod.fst

/-- Rating for hotel `h` in dictionary `q`, with the sentinel 0 when absent. -/
def rat0 (q : List (ℕ × ℚ)) (h : ℕ) : ℚ := (alookup q h).getD 0

/-! Embedding of `similarity.py`.  Each user is a `{hotel_id: rating}` dict.
`sqrt` is the square-root function used by numpy and scikit-learn. -/

/-- `set(user1_ratings.keys()) & set(user2_ratings.keys())`, as a duplicate
free list. -/
def commonHotels (q1 q2 : List (ℕ × ℚ)) : List ℕ :=
  ((keys q1).filter (fun h => (alookup q2 h).isSome)).dedup

/-- Sum of `f` over a list of hotel ids. -/
def sumOver (hs : List ℕ) (f : ℕ → ℚ) : ℚ := (hs.map f).sum

/-- Dot product of the two users' common-hotel rating vectors. -/
def cosDot (q1 q2 : List (ℕ × ℚ)) : ℚ :=
  sumOver (commonHotels q1 q2) (fun h => rat0 q1 h * rat0 q2 h)

/-- Squared norm of the first user's common-hotel rating vector. -/
def cosNorm1 (q1 q2 : List (ℕ × ℚ)) : ℚ :=
  sumOver (commonHotels q1 q2) (fun h => rat0 q1 h * rat0 q1 h)

/-- Squared norm of the second user's common-hotel rating vector. -/
def cosNorm2 (q1 q2 : List (ℕ × ℚ)) : ℚ :=
  sumOver (commonHotels q1 q2) (fun h => rat0 q2 h * rat0 q2 h)

/-- `cosine_similarity_users` of `similarity.py`: cosine similarity over the
commonly rated hotels, clipped below by 0 (`max(0.0, similarity)`); 0 when
there is no common hotel.  A zero norm yields similarity 0 (both in sklearn,
which leaves zero rows unnormalised, and here, where division by zero is 0). -/
def cosine_similarity_users (sqrt : ℚ → ℚ) (q1 q2 : List (ℕ × ℚ)) : ℚ :=
  if commonHotels q1 q2 = [] then 0
  else max 0 (cosDot q1 q2 / (sqrt (cosNorm1 q1 q2) * sqrt (cosNorm2 q1 q2)))

/-- Number of common hotels as a rational. -/
def chCount (q1 q2 : List (ℕ × ℚ)) : ℚ := ((commonHotels q1 q2).length : ℚ)

/-- Mean of `q`'s ratings over the common hotels. -/
def chMean (q1 q2 q : List (ℕ × ℚ)) : ℚ :=
  sumOver (commonHotels q1 q2) (rat0 q) / chCount q1 q2

/-- Centered cross sum `Σ (a - mean a)(b - mean b)` of `np.corrcoef`. -/
def pearsonNum (q1 q2 : List (ℕ × ℚ)) : ℚ :=
  sumOver (commonHotels q1 q2)
    (fun h => (rat0 q1 h - chMean q1 q2 q1) * (rat0 q2 h - chMean q1 q2 q2))

/-- Centered square sum `Σ (a - mean a)²` for the first user. -/
def pearsonDen1 (q1 q2 : List (ℕ × ℚ)) : ℚ :=
  sumOver (commonHotels q1 q2)
    (fun h => (rat0 q1 h - chMean q1 q2 q1) * (rat0 q1 h - chMean q1 q2 q1))

/-- Centered square sum `Σ (b - mean b)²` for the second user. -/
def pearsonDen2 (q1 q2 : List (ℕ × ℚ)) : ℚ :=
  sumOver (commonHotels q1 q2)
    (fun h => (rat0 q2 h - chMean q1 q2 q2) * (rat0 q2 h - chMean q1 q2 q2))

/-- `pearson_correlation` of `similarity.py`: 0 when fewer than two common
hotels, else the raw Pearson correlation `c01 / sqrt(c00 * c11)` computed by
`np.corrcoef` (the `1/(n-1)` covariance factors cancel).  The `np.isnan`
check maps NaN (which arises exactly when a centered square sum is 0, hence
numerator 0 as well) to 0, which coincides with `ℚ`'s division by zero.
Note: the result is returned WITHOUT clipping negative values. -/
def pearson_correlation (sqrt : ℚ → ℚ) (q1 q2 : List (ℕ × ℚ)) : ℚ :=
  if (commonHotels q1 q2).length < 2 then 0
  else pearsonNum q1 q2 / sqrt (pearsonDen1 q1 q2 * pearsonDen2 q1 q2)

/-- Squared euclidean distance over the common hotels. -/
def euclidSq (q1 q2 : List (ℕ × ℚ)) : ℚ :=
  sumOver (commonHotels q1 q2) (fun h => (rat0 q1 h - rat0 q2 h) * (rat0 q1 h - rat0 q2 h))

/-- `euclidean_similarity` of `similarity.py`: `1 / (1 + sqrt(Σ (a-b)²))`
over the common hotels, 0 when there is none. -/
def euclidean_similarity (sqrt : ℚ → ℚ) (q1 q2 : List (ℕ × ℚ)) : ℚ :=
  if commonHotels q1 q2 = [] then 0
  else 1 / (1 + sqrt (euclidSq q1 q2))

/-- The set of hotels a user rated at least `t` (`threshold`, default 3.5). -/
def likedSet (q : List (ℕ × ℚ)) (t : ℚ) : Finset ℕ :=
  ((q.filter (fun p => decide (t ≤ p.2))).map Prod.fst).toFinset

/-- `jaccard_similarity` of `similarity.py`: |liked₁ ∩ liked₂| / |liked₁ ∪ liked₂|,
0 when the union is empty. -/
def jaccard_similarity (q1 q2 : List (ℕ × ℚ)) (t : ℚ) : ℚ :=
  if ((likedSet q1 t) ∪ (likedSet q2 t)).card = 0 then 0
  else (((likedSet q1 t) ∩ (likedSet q2 t)).card : ℚ) /
    (((likedSet q1 t) ∪ (likedSet q2 t)).card : ℚ)

/-! Embedding of `knn_recommender.py`. -/

/-- A row of `hotels.csv` (`hotels_df`). -/
structure Hotel where
  hotel_id : ℕ
  nom : String
  categorie : String
  localisation : String
  prix : ℚ
  commodites : String
  description : String
deriving DecidableEq, Repr

/-- The explanation strings produced by `_generate_explanation` and
`_get_popular_recommendations`, as tagged values carrying the data the
Python f-strings interpolate. -/
inductive Explanation where
  | popular (avg : ℚ)
  | similarTastesPopular
  | similarCategory (cat : String)
  | sameLocation (loc : String)
  | priceRange
  | similarUsers
deriving DecidableEq, Repr

/-- One element of the list returned by `get_recommendations`. -/
structure Recommendation where
  hotel_id : ℕ
  nom : String
  predicted_rating : ℚ
  categorie : String
  localisation : String
  prix : ℚ
  commodites : String
  description : String
  explanation : Explanation
deriving DecidableEq, Repr

/-- The loaded state of a `HotelRecommender`: `k`, the pivoted user-item
matrix (`users` = row order, `hotels` = column order, `cell` = matrix entry,
0 meaning unrated), the raw `ratings_df` rows `(user_id, hotel_id, rating)`,
the `hotels_df` rows, and the two irrational-valued primitives: `cosDist`
(scikit-learn cosine distance between a query vector and a matrix row) and
`log` (`np.log` evaluated at a natural number). -/
structure RecState where
  k : ℕ
  users : List ℕ
  hotels : List ℕ
  cell : ℕ → ℕ → ℚ
  ratingsTable : List (ℕ × ℕ × ℚ)
  hotelsTable : List Hotel
  cosDist : List ℚ → List ℚ → ℚ
  log : ℕ → ℚ

/-! A small generic insertion sort.  `insertSorted` inserts behind every
element the new one is not strictly below, so sorting a list whose strict
order `lt` is a total strict order yields the unique ordered permutation;
instantiated with a lexicographic order (primary key, then ascending id)
it models the deterministic order produced by stable Python sorts whose
input is in ascending id order. -/

/-- Insert `p` into `l`, in front of the first element `x` with `lt p x`. -/
def insertSorted {α : Type} (lt : α → α → Prop) [DecidableRel lt] (p : α) :
    List α → List α
  | [] => [p]
  | x :: xs => if lt p x then p :: x :: xs else x :: insertSorted lt p xs

/-- Insertion sort by the strict order `lt`. -/
def sortL {α : Type} (lt : α → α → Prop) [DecidableRel lt] (l : List α) : List α :=
  l.foldl (fun acc x => insertSorted lt x acc) []

/-- Strict lexicographic order by a rational key, then an ascending ℕ id. -/
def lexLt {α : Type} (key : α → ℚ) (tid : α → ℕ) (a b : α) : Prop :=
  key a < key b ∨ (key a = key b ∧ tid a < tid b)

instance {α : Type} (key : α → ℚ) (tid : α → ℕ) : DecidableRel (lexLt key tid) :=
  fun a b => by unfold lexLt; infer_instance

/-- The non-strict companion of `lexLt`. -/
def lexLe {α : Type} (key : α → ℚ) (tid : α → ℕ) (a b : α) : Prop :=
  key a < key b ∨ (key a = key b ∧ tid a ≤ tid b)

/-- The query vector of `find_similar_users`: one coordinate per matrix
column, the user's rating where the hotel id is a known column, 0 elsewhere
(unknown ids in the dict are ignored). -/
def userVector (s : RecState) (q : List (ℕ × ℚ)) : List ℚ :=
  s.hotels.map (fun h => rat0 q h)

/-- The matrix row of user `u`. -/
def rowVector (s : RecState) (u : ℕ) : List ℚ :=
  s.hotels.map (fun h => s.cell u h)

/-- `n_neighbors = min(self.k, len(self.user_item_matrix) - 1)` from
`_train_model`. -/
def nNeighbors (s : RecState) : ℕ := min s.k (s.users.length - 1)

/-- Each user paired with its cosine distance to the query vector. -/
def distList (s : RecState) (q : List (ℕ × ℚ)) : List (ℕ × ℚ) :=
  s.users.map (fun u => (u, s.cosDist (userVector s q) (rowVector s u)))

/-- `find_similar_users`: the `n_neighbors` nearest rows by cosine distance
(ties by ascending row position = ascending user_id), each reported as
`{user_id, similarity = 1 - distance}`.  scikit-learn raises
`Expected n_neighbors > 0` when `min(k, n_users - 1) = 0`. -/
def find_similar_users (s : RecState) (q : List (ℕ × ℚ)) :
    Except String (List (ℕ × ℚ)) :=
  if nNeighbors s = 0 then Except.error "Expected n_neighbors greater than zero"
  else Except.ok
    (((sortL (lexLt Prod.snd Prod.fst) (distList s q)).take (nNeighbors s)).map
      (fun p => (p.1, 1 - p.2)))

/-- `list(set(columns) - set(user_ratings.keys()))` of `predict_ratings`:
candidate hotels are the unrated matrix columns, in ascending id order. -/
def candidates (s : RecState) (q : List (ℕ × ℚ)) : List ℕ :=
  s.hotels.filter (fun h => (alookup q h).isNone)

/-- The neighbors whose stored rating for hotel `h` is non-sentinel
(`if rating > 0` in the prediction loop). -/
def raters (s : RecState) (nbrs : List (ℕ × ℚ)) (h : ℕ) : List (ℕ × ℚ) :=
  nbrs.filter (fun p => decide (0 < s.cell p.1 h))

/-- `similarity_sum` accumulated by the prediction loop for hotel `h`. -/
def simSum (s : RecState) (nbrs : List (ℕ × ℚ)) (h : ℕ) : ℚ :=
  ((raters s nbrs h).map Prod.snd).sum

/-- `weighted_sum` accumulated by the prediction loop for hotel `h`. -/
def weightedSum (s : RecState) (nbrs : List (ℕ × ℚ)) (h : ℕ) : ℚ :=
  ((raters s nbrs h).map (fun p => s.cell p.1 h * p.2)).sum

/-- The unrounded `predicted_rating = weighted_sum / similarity_sum`. -/
def predVal (s : RecState) (nbrs : List (ℕ × ℚ)) (h : ℕ) : ℚ :=
  weightedSum s nbrs h / simSum s nbrs h

/-- `predict_ratings`: for each candidate hotel with `similarity_sum > 0`,
the rounded weighted average of the neighbors' non-sentinel ratings; other
candidates are omitted.  The `kneighbors` failure propagates. -/
def predict_ratings (s : RecState) (q : List (ℕ × ℚ)) :
    Except String (List (ℕ × ℚ)) :=
  match find_similar_users s q with
  | Except.error e => Except.error e
  | Except.ok nbrs =>
      Except.ok ((candidates s q).filterMap (fun h =>
        if 0 < simSum s nbrs h then some (h, round2 (predVal s nbrs h)) else none))

/-- `self.hotels_df[self.hotels_df['hotel_id'] == hotel_id]`, first row. -/
def findHotel (s : RecState) (h : ℕ) : Option Hotel :=
  s.hotelsTable.find? (fun ht => ht.hotel_id == h)

/-- The hotel ids the user rated at least 4 (`high_rated`). -/
def highRated (q : List (ℕ × ℚ)) : List ℕ :=
  (q.filter (fun p => decide (4 ≤ p.2))).map Prod.fst

/-- `hotels_df` rows whose id is in `ids` (`isin`). -/
def hotelsIn (s : RecState) (ids : List ℕ) : List Hotel :=
  s.hotelsTable.filter (fun ht => ids.contains ht.hotel_id)

/-- Mean price of a list of hotels (`high_rated_hotels['prix'].mean()`). -/
def meanPrice (hs : List Hotel) : ℚ := (hs.map Hotel.prix).sum / (hs.length : ℚ)

/-- `_generate_explanation`. -/
def generateExplanation (s : RecState) (q : List (ℕ × ℚ)) (ht : Hotel) :
    Explanation :=
  if hotelsIn s (keys q) = [] then Explanation.similarTastesPopular
  else if highRated q ≠ [] ∧ hotelsIn s (highRated q) ≠ [] then
    if (hotelsIn s (highRated q)).map Hotel.categorie |>.contains ht.categorie then
      Explanation.similarCategory ht.categorie
    else if (hotelsIn s (highRated q)).map Hotel.localisation |>.contains ht.localisation then
      Explanation.sameLocation ht.localisation
    else if |ht.prix - meanPrice (hotelsIn s (highRated q))| < 100 then
      Explanation.priceRange
    else Explanation.similarUsers
  else Explanation.similarUsers

/-- Build one output record from a `hotels_df` row, a predicted rating and
an explanation (`_format_recommendations` / `_get_popular_recommendations`
body). -/
def mkRec (ht : Hotel) (pr : ℚ) (e : Explanation) : Recommendation :=
  { hotel_id := ht.hotel_id, nom := ht.nom, predicted_rating := pr,
    categorie := ht.categorie, localisation := ht.localisation,
    prix := ht.prix, commodites := ht.commodites,
    description := ht.description, explanation := e }

/-- `_format_recommendations`: keep the predictions whose hotel exists in
`hotels_df`, joining metadata and a personalised explanation. -/
def formatRecs (s : RecState) (preds : List (ℕ × ℚ)) (q : List (ℕ × ℚ)) :
    List Recommendation :=
  preds.filterMap (fun p => (findHotel s p.1).map
    (fun ht => mkRec ht p.2 (generateExplanation s q ht)))

/-- All ratings for hotel `h` in `ratings_df`. -/
def ratingsFor (s : RecState) (h : ℕ) : List ℚ :=
  (s.ratingsTable.filter (fun r => r.2.1 == h)).map (fun r => r.2.2)

/-- Arithmetic-mean rating of hotel `h` over the whole rating table. -/
def meanRating (s : RecState) (h : ℕ) : ℚ :=
  (ratingsFor s h).sum / ((ratingsFor s h).length : ℚ)

/-- The distinct hotel ids of `ratings_df`, ascending (`groupby` order). -/
def ratedHotelIds (s : RecState) : List ℕ :=
  sortL (lexLt (fun h => (h : ℚ)) id) (s.ratingsTable.map (fun r => r.2.1)).dedup

/-- `hotel_stats`: per hotel, the rating count and the 2-decimal-rounded
mean (`agg({'rating': ['count','mean']}).round(2)`), in ascending id order. -/
def hotelStats (s : RecState) : List (ℕ × ℕ × ℚ) :=
  (ratedHotelIds s).map (fun h => (h, (ratingsFor s h).length, round2 (meanRating s h)))

/-- `popularity_score = avg_rating * np.log(count + 1)`. -/
def popScore (s : RecState) (st : ℕ × ℕ × ℚ) : ℚ := st.2.2 * s.log (st.2.1 + 1)

/-- `nlargest(n, 'popularity_score')`: descending score, ties keeping the
first occurrence, i.e. the smaller hotel id. -/
def topPopular (s : RecState) (n : ℕ) : List (ℕ × ℕ × ℚ) :=
  (sortL (lexLt (fun st => -(popScore s st)) (fun st => st.1)) (hotelStats s)).take n

/-- `_get_popular_recommendations`: the top-`n` hotels by popularity score,
each annotated with its rounded mean rating (as `predicted_rating`) and the
generic popularity explanation embedding that same mean. -/
def popularRecs (s : RecState) (n : ℕ) : List Recommendation :=
  (topPopular s n).filterMap (fun st => (findHotel s st.1).map
    (fun ht => mkRec ht st.2.2 (Explanation.popular st.2.2)))

/-- The strict order used by `sorted(predictions.items(), key=..., reverse=True)`:
descending predicted value; a stable sort of the insertion-ordered dict
breaks ties by ascending hotel id. -/
def predLt (a b : ℕ × ℚ) : Prop := lexLt (fun p => -p.2) Prod.fst a b

instance : DecidableRel predLt := fun a b => by unfold predLt; infer_instance

/-- `get_recommendations`: cold start (< 2 ratings) returns the popularity
list; an internal scoring failure is caught and degraded to the popularity
list; fewer predictions than requested are padded with popular hotels;
otherwise the top `n` predictions by descending (rounded) value. -/
def get_recommendations (s : RecState) (q : List (ℕ × ℚ)) (n : ℕ) :
    List Recommendation :=
  if q.length < 2 then popularRecs s n
  else
    match predict_ratings s q with
    | Except.error _ => popularRecs s n
    | Except.ok preds =>
        if preds.length < n then
          formatRecs s preds q ++ popularRecs s (n - preds.length)
        else
          formatRecs s ((sortL predLt preds).take n) q

/-! Embedding of the `/recommend` route handler
(`routes/recommendations.py`). -/

/-- The two validation failures the route can raise before calling the
recommender. -/
inductive RouteError where
  | emptyRatings
  | ratingOutOfRange (hotel : ℕ)
deriving DecidableEq, Repr

/-- The `/recommend` handler: reject an empty dict, then reject the first
rating outside `[1, 5]` (`if not 1 <= rating <= 5`), else answer with
`get_recommendations`. -/
def routeRecommend (s : RecState) (q : List (ℕ × ℚ)) (n : ℕ) :
    Except RouteError (List Recommendation) :=
  if q = [] then Except.error RouteError.emptyRatings
  else
    match q.find? (fun p => decide (p.2 < 1) || decide (5 < p.2)) with
    | some p => Except.error (RouteError.ratingOutOfRange p.1)
    | none => Except.ok (get_recommendations s q n)

/-! Concrete instances used by counterexamples and witnesses. -/

/-- A metadata row for hotel `i` (concrete values are irrelevant to the
claims they serve). -/
def mkHotel (i : ℕ) : Hotel :=
  { hotel_id := i, nom := "H", categorie := "Luxe", localisation := "Paris",
    prix := 200, commodites := "wifi", description := "" }

/-- Two users who both rated hotels 1 and 2 with 4; hotel 3 is unrated.
The query below repeats exactly those two ratings, so its vector equals both
rows and every cosine distance is 0; `np.log` is only evaluated at 3
(`count + 1 = 3`), where it is ln 3 ≈ 1.0986. -/
def S1 : RecState :=
  { k := 5
    users := [1, 2]
    hotels := [1, 2, 3]
    cell := fun _ h => if h = 3 then 0 else 4
    ratingsTable := [(1, 1, 4), (1, 2, 4), (2, 1, 4), (2, 2, 4)]
    hotelsTable := [mkHotel 1, mkHotel 2, mkHotel 3]
    cosDist := fun _ _ => 0
    log := fun _ => 10986/10000 }

/-- The query of the C1 counterexample: hotels 1 and 2 rated 4. -/
def Q1 : List (ℕ × ℚ) := [(1, 4), (2, 4)]

/-- Two users over two hotels; the query below rates only hotels unknown to
the matrix, so its vector is the zero vector and every scikit-learn cosine
distance is exactly 1 (similarity 0). -/
def S5 : RecState :=
  { k := 5
    users := [1, 2]
    hotels := [1, 2]
    cell := fun _ _ => 4
    ratingsTable := [(1, 1, 4), (1, 2, 4), (2, 1, 4), (2, 2, 4)]
    hotelsTable := [mkHotel 1, mkHotel 2]
    cosDist := fun _ _ => 1
    log := fun _ => 10986/10000 }

/-- A query rating only hotels 3 and 4, absent from `S5`'s matrix. -/
def Q5 : List (ℕ × ℚ) := [(3, 5), (4, 5)]

/-- User 1 rated hotels 1, 2 with means 4.446 and 4.449 and hotels 10, 11
with 5; user 2 rated only hotel 11 with 5.  Against the query vector
`[0, 0, 5, 5]` the true cosine distances are ≈ 0.2528 (row 1) and
≈ 0.2929 (row 2); `cosDist` supplies the rational stand-ins 1/4 and 3/10,
which preserve the exact ordering.  `np.log` is never evaluated on this
code path. -/
def S6 : RecState :=
  { k := 1
    users := [1, 2]
    hotels := [1, 2, 10, 11]
    cell := fun u h =>
      if u = 1 then
        if h = 1 then 4446/1000 else if h = 2 then 4449/1000 else 5
      else
        if h = 11 then 5 else 0
    ratingsTable := [(1, 1, 4446/1000), (1, 2, 4449/1000), (1, 10, 5), (1, 11, 5), (2, 11, 5)]
    hotelsTable := [mkHotel 1, mkHotel 2, mkHotel 10, mkHotel 11]
    cosDist := fun _ w => if w = [0, 0, 0, 5] then 3/10 else 1/4
    log := fun _ => 1 }

/-- The query of the C6 counterexample: hotels 10 and 11 rated 5. -/
def Q6 : List (ℕ × ℚ) := [(10, 5), (11, 5)]

/-- A matrix with a single user: `n_neighbors = min(5, 1 - 1) = 0`, so
`kneighbors` raises and personalized scoring fails internally. -/
def SE : RecState :=
  { k := 5
    users := [1]
    hotels := [1, 2]
    cell := fun _ _ => 4
    ratingsTable := [(1, 1, 4), (1, 2, 4)]
    hotelsTable := [mkHotel 1, mkHotel 2]
    cosDist := fun _ _ => 0
    log := fun _ => 10986/10000 }

/-- A valid two-rating query for `SE`. -/
def QE : List (ℕ × ℚ) := [(1, 4), (2, 4)]

/-- The square root function at the only point the C8 counterexample
evaluates it: √64 = 8. -/
def sq64 : ℚ → ℚ := fun x => if x = 64 then 8 else 0

/-- First user of the C8 witness: hotels 0, 1 rated 3 and 4. -/
def QW1 : List (ℕ × ℚ) := [(0, 3), (1, 4)]

/-- Second user of the C8 witness: hotels 0, 1 rated 4 and 3. -/
def QW2 : List (ℕ × ℚ) := [(0, 4), (1, 3)]

/-- The square root function at the three points the C8 witness evaluates
it: √25 = 5, √(1/4) = 1/2, and a nonnegative stand-in for √2. -/
def sqW : ℚ → ℚ :=
  fun x => if x = 25 then 5 else if x = 1/4 then 1/2 else if x = 2 then 141/100 else 0

/-! Generic facts about the insertion sort. -/

section SortLemmas

variable {α : Type} (lt : α → α → Prop) [DecidableRel lt]

theorem length_insertSorted (p : α) (l : List α) :
    (insertSorted lt p l).length = l.length + 1 := by
  induction l with
  | nil => rfl
  | cons x xs ih =>
      by_cases h : lt p x <;> simp [insertSorted, h, ih]

theorem mem_insertSorted (p x : α) (l : List α) :
    x ∈ insertSorted lt p l ↔ x = p ∨ x ∈ l := by
  induction l with
  | nil => simp [insertSorted]
  | cons y ys ih =>
      by_cases h : lt p y <;> simp [insertSorted, h, ih] <;> tauto

theorem pairwise_insertSorted (le : α → α → Prop)
    (h1 : ∀ a b, lt a b → le a b) (h2 : ∀ a b, ¬ lt a b → le b a)
    (htr : ∀ a b c, le a b → le b c → le a c)
    (p : α) (l : List α) (hl : l.Pairwise le) :
    (insertSorted lt p l).Pairwise le := by
  induction l with
  | nil => simp [insertSorted]
  | cons x xs ih =>
      rcases List.pairwise_cons.1 hl with ⟨hx, hxs⟩
      by_cases h : lt p x
      · simp only [insertSorted, if_pos h]
        refine List.pairwise_cons.2 ⟨?_, List.pairwise_cons.2 ⟨hx, hxs⟩⟩
        intro y hy
        rcases List.mem_cons.1 hy with rfl | hy
        · exact h1 _ _ h
        · exact htr _ _ _ (h1 _ _ h) (hx _ hy)
      · simp only [insertSorted, if_neg h]
        refine List.pairwise_cons.2 ⟨?_, ih hxs⟩
        intro y hy
        rcases (mem_insertSorted lt p y xs).1 hy with rfl | hy
        · exact h2 _ _ h
        · exact hx _ hy

theorem length_sortL (l : List α) : (sortL lt l).length = l.length := by
  suffices h : ∀ (l acc : List α),
      (l.foldl (fun acc x => insertSorted lt x acc) acc).length = acc.length + l.length by
    simpa using h l []
  intro l
  induction l with
  | nil => simp
  | cons x xs ih =>
      intro acc
      simp only [List.foldl_cons, ih, length_insertSorted, List.length_cons]
      omega

theorem mem_sortL (x : α) (l : List α) : x ∈ sortL lt l ↔ x ∈ l := by
  suffices h : ∀ (l acc : List α) (x : α),
      (x ∈ l.foldl (fun acc y => insertSorted lt y acc) acc ↔ x ∈ acc ∨ x ∈ l) by
    simpa using h l [] x
  intro l
  induction l with
  | nil => simp
  | cons y ys ih =>
      intro acc x
      simp only [List.foldl_cons, ih, mem_insertSorted, List.mem_cons]
      tauto

theorem pairwise_sortL (le : α → α → Prop)
    (h1 : ∀ a b, lt a b → le a b) (h2 : ∀ a b, ¬ lt a b → le b a)
    (htr : ∀ a b c, le a b → le b c → le a c)
    (l : List α) : (sortL lt l).Pairwise le := by
  suffices h : ∀ (l acc : List α), acc.Pairwise le →
      (l.foldl (fun acc x => insertSorted lt x acc) acc).Pairwise le by
    exact h l [] List.Pairwise.nil
  intro l
  induction l with
  | nil => intro acc h; simpa using h
  | cons x xs ih =>
      intro acc hacc
      exact ih _ (pairwise_insertSorted lt le h1 h2 htr x acc hacc)

end SortLemmas

/-! The lexicographic orders used by the engine. -/

theorem lexLt_le {α : Type} (key : α → ℚ) (tid : α → ℕ) (a b : α)
    (h : lexLt key tid a b) : lexLe key tid a b := by
  rcases h with h | ⟨h1, h2⟩
  · exact Or.inl h
  · exact Or.inr ⟨h1, Nat.le_of_lt h2⟩

theorem not_lexLt_le {α : Type} (key : α → ℚ) (tid : α → ℕ) (a b : α)
    (h : ¬ lexLt key tid a b) : lexLe key tid b a := by
  unfold lexLt at h
  push_neg at h
  rcases h with ⟨h1, h2⟩
  rcases eq_or_lt_of_le h1 with heq | hlt
  · exact Or.inr ⟨heq, h2 heq.symm⟩
  · exact Or.inl hlt

theorem lexLe_trans {α : Type} (key : α → ℚ) (tid : α → ℕ) (a b c : α)
    (h1 : lexLe key tid a b) (h2 : lexLe key tid b c) : lexLe key tid a c := by
  rcases h1 with h1 | ⟨e1, t1⟩ <;> rcases h2 with h2 | ⟨e2, t2⟩
  · exact Or.inl (h1.trans h2)
  · exact Or.inl (by rw [← e2]; exact h1)
  · exact Or.inl (by rw [e1]; exact h2)
  · exact Or.inr ⟨e1.trans e2, t1.trans t2⟩

theorem pairwise_sortL_lex {α : Type} (key : α → ℚ) (tid : α → ℕ) (l : List α) :
    (sortL (lexLt key tid) l).Pairwise (lexLe key tid) :=
  pairwise_sortL _ _ (lexLt_le key tid) (not_lexLt_le key tid)
    (lexLe_trans key tid) l

/-! Dictionary lookup facts. -/

theorem alookup_eq_none {q : List (ℕ × ℚ)} {a : ℕ} :
    alookup q a = none ↔ a ∉ keys q := by
  induction q with
  | nil => simp [alookup, keys]
  | cons p ps ih =>
      by_cases h : p.1 = a <;> simp [alookup, keys, h] at ih ⊢ <;> tauto

theorem findHotel_id {s : RecState} {h : ℕ} {ht : Hotel}
    (hf : findHotel s h = some ht) : ht.hotel_id = h := by
  have hp := List.find?_some hf
  simpa using hp

/-! Facts about the engine pipeline shared by the developments below. -/

theorem find_similar_ok {s : RecState} {q : List (ℕ × ℚ)} {nbrs : List (ℕ × ℚ)}
    (hn : find_similar_users s q = Except.ok nbrs) :
    nbrs = ((sortL (lexLt Prod.snd Prod.fst) (distList s q)).take (nNeighbors s)).map
      (fun p => (p.1, 1 - p.2)) ∧ nNeighbors s ≠ 0 := by
  unfold find_similar_users at hn
  by_cases h0 : nNeighbors s = 0
  · rw [if_pos h0] at hn; cases hn
  · rw [if_neg h0] at hn
    injection hn with h
    exact ⟨h.symm, h0⟩

theorem predict_ok_eq {s : RecState} {q nbrs preds : List (ℕ × ℚ)}
    (hn : find_similar_users s q = Except.ok nbrs)
    (hp : predict_ratings s q = Except.ok preds) :
    preds = (candidates s q).filterMap (fun h =>
      if 0 < simSum s nbrs h then some (h, round2 (predVal s nbrs h)) else none) := by
  unfold predict_ratings at hp
  rw [hn] at hp
  injection hp with h
  exact h.symm

theorem mem_predict {s : RecState} {q nbrs preds : List (ℕ × ℚ)}
    (hn : find_similar_users s q = Except.ok nbrs)
    (hp : predict_ratings s q = Except.ok preds) {h : ℕ} {v : ℚ} :
    (h, v) ∈ preds ↔
      h ∈ candidates s q ∧ 0 < simSum s nbrs h ∧ v = round2 (predVal s nbrs h) := by
  rw [predict_ok_eq hn hp, List.mem_filterMap]
  constructor
  · rintro ⟨a, ha, hfa⟩
    by_cases hpos : 0 < simSum s nbrs a
    · rw [if_pos hpos] at hfa
      injection hfa with hfa
      rw [Prod.mk.injEq] at hfa
      obtain ⟨rfl, rfl⟩ := hfa
      exact ⟨ha, hpos, rfl⟩
    · rw [if_neg hpos] at hfa
      cases hfa
  · rintro ⟨ha, hpos, rfl⟩
    exact ⟨h, ha, by rw [if_pos hpos]⟩

theorem mem_nbrs_sim {s : RecState} {q nbrs : List (ℕ × ℚ)}
    (hn : find_similar_users s q = Except.ok nbrs) {p : ℕ × ℚ} (hp : p ∈ nbrs) :
    ∃ u ∈ s.users, p = (u, 1 - s.cosDist (userVector s q) (rowVector s u)) := by
  obtain ⟨rfl, -⟩ := find_similar_ok hn
  rcases List.mem_map.1 hp with ⟨x, hx, rfl⟩
  have hx2 : x ∈ distList s q := (mem_sortL _ _ _).1 (List.mem_of_mem_take hx)
  rcases List.mem_map.1 hx2 with ⟨u, hu, rfl⟩
  exact ⟨u, hu, rfl⟩

theorem mem_formatRecs {s : RecState} {preds q : List (ℕ × ℚ)} {r : Recommendation} :
    r ∈ formatRecs s preds q ↔
      ∃ p ∈ preds, ∃ ht, findHotel s p.1 = some ht ∧
        r = mkRec ht p.2 (generateExplanation s q ht) := by
  simp only [formatRecs, List.mem_filterMap, Option.map_eq_some']
  constructor
  · rintro ⟨p, hp, ht, hht, rfl⟩
    exact ⟨p, hp, ht, hht, rfl⟩
  · rintro ⟨p, hp, ht, hht, rfl⟩
    exact ⟨p, hp, ht, hht, rfl⟩

theorem mem_popularRecs {s : RecState} {n : ℕ} {r : Recommendation} :
    r ∈ popularRecs s n ↔
      ∃ st ∈ topPopular s n, ∃ ht, findHotel s st.1 = some ht ∧
        r = mkRec ht st.2.2 (Explanation.popular st.2.2) := by
  simp only [popularRecs, List.mem_filterMap, Option.map_eq_some']
  constructor
  · rintro ⟨st, hst, ht, hht, rfl⟩
    exact ⟨st, hst, ht, hht, rfl⟩
  · rintro ⟨st, hst, ht, hht, rfl⟩
    exact ⟨st, hst, ht, hht, rfl⟩

/-- C2.  Range validation of the `/recommend` route: a request containing a
rating outside `[1, 5]` is rejected whole with the out-of-range validation
error (no partial result), and a request whose ratings all lie in `[1, 5]`
never triggers that validation error. -/
theorem C2_range_validation (s : RecState) (q : List (ℕ × ℚ)) (n : ℕ) :
    ((∃ p ∈ q, p.2 < 1 ∨ 5 < p.2) →
      ∃ h, routeRecommend s q n = Except.error (RouteError.ratingOutOfRange h)) ∧
    ((∀ p ∈ q, 1 ≤ p.2 ∧ p.2 ≤ 5) →
      ∀ h, routeRecommend s q n ≠ Except.error (RouteError.ratingOutOfRange h)) := by
  constructor
  · rintro ⟨p, hp, hbad⟩
    have hq : q ≠ [] := by rintro rfl; cases hp
    have hfind : (q.find? (fun p => decide (p.2 < 1) || decide (5 < p.2))).isSome := by
      rw [List.find?_isSome]
      exact ⟨p, hp, by rcases hbad with hb | hb <;> simp [hb]⟩
    rcases Option.isSome_iff_exists.1 hfind with ⟨p0, hp0⟩
    refine ⟨p0.1, ?_⟩
    rw [routeRecommend, if_neg hq, hp0]
  · intro hall h
    have hfind : q.find? (fun p => decide (p.2 < 1) || decide (5 < p.2)) = none := by
      rw [List.find?_eq_none]
      intro p hp
      rcases hall p hp with ⟨h1, h2⟩
      simp [not_lt.2 h1, not_lt.2 h2]
    by_cases hq : q = []
    · rw [routeRecommend, if_pos hq]
      intro hcon
      cases hcon
    · rw [routeRecommend, if_neg hq, hfind]
      intro hcon
      cases hcon

/-- Witness for C2 at concrete requests: `{7: 6}` is rejected with the
out-of-range error, while `Q1 = {1: 4, 2: 4}` is not. -/
theorem C2_range_validation_witness :
    (∃ h, routeRecommend S1 [(7, 6)] 1 = Except.error (RouteError.ratingOutOfRange h)) ∧
    (∀ h, routeRecommend S1 Q1 2 ≠ Except.error (RouteError.ratingOutOfRange h)) := by
  constructor
  · exact (C2_range_validation S1 [(7, 6)] 1).1 ⟨(7, 6), by norm_num, by norm_num⟩
  · exact (C2_range_validation S1 Q1 2).2 (by norm_num [Q1])

/-- C3.  Cold start: with fewer than two query ratings, the result of
`get_recommendations` is exactly the popularity fallback list for `n`. -/
theorem C3_cold_start (s : RecState) (q : List (ℕ × ℚ)) (n : ℕ)
    (hq : q.length < 2) :
    get_recommendations s q n = popularRecs s n := by
  rw [get_recommendations, if_pos hq]

/-- Witness for C3 at a single-rating query on the concrete state `S1`. -/
theorem C3_cold_start_witness :
    ([((1 : ℕ), (4 : ℚ))].length < 2) ∧
    get_recommendations S1 [(1, 4)] 3 = popularRecs S1 3 :=
  ⟨by norm_num, C3_cold_start S1 [(1, 4)] 3 (by norm_num)⟩

/-- C7.  An internal failure of personalized scoring (here: the `kneighbors`
error) is caught inside `get_recommendations`, which returns the full
popularity fallback of size `n`; and after passing validation the route
always answers `Except.ok` with whatever `get_recommendations` returns, so
the caller observes no error besides the validation one. -/
theorem C7_internal_failure_fallback (s : RecState) (q : List (ℕ × ℚ)) (n : ℕ)
    (hq : ¬ q.length < 2) (e : String)
    (he : predict_ratings s q = Except.error e) :
    get_recommendations s q n = popularRecs s n ∧
    (q ≠ [] → (∀ p ∈ q, 1 ≤ p.2 ∧ p.2 ≤ 5) →
      routeRecommend s q n = Except.ok (get_recommendations s q n)) := by
  constructor
  · rw [get_recommendations, if_neg hq, he]
  · intro hne hall
    have hfind : q.find? (fun p => decide (p.2 < 1) || decide (5 < p.2)) = none := by
      rw [List.find?_eq_none]
      intro p hp
      rcases hall p hp with ⟨h1, h2⟩
      simp [not_lt.2 h1, not_lt.2 h2]
    rw [routeRecommend, if_neg hne, hfind]

/-- Witness for C7 on the single-user state `SE`, where `kneighbors` fails:
the result is the popularity list and the route still answers `ok`. -/
theorem C7_internal_failure_fallback_witness :
    predict_ratings SE QE = Except.error "Expected n_neighbors greater than zero" ∧
    get_recommendations SE QE 3 = popularRecs SE 3 ∧
    routeRecommend SE QE 3 = Except.ok (get_recommendations SE QE 3) := by
  have he : predict_ratings SE QE = Except.error "Expected n_neighbors greater than zero" := by
    norm_num [predict_ratings, find_similar_users, nNeighbors, SE]
  have hmain := C7_internal_failure_fallback SE QE 3 (by norm_num [QE]) _ he
  exact ⟨he, hmain.1, hmain.2 (by simp [QE]) (by norm_num [QE])⟩

theorem length_popularRecs_le (s : RecState) (n : ℕ) :
    (popularRecs s n).length ≤ n :=
  le_trans (List.length_filterMap_le _ _) (List.length_take_le n _)

theorem length_formatRecs_le (s : RecState) (preds q : List (ℕ × ℚ)) :
    (formatRecs s preds q).length ≤ preds.length :=
  List.length_filterMap_le _ _

/-- C1 counterexample.  On `S1` with the query `Q1 = {1: 4, 2: 4}` and
`n = 2`, only hotel 3 is a prediction candidate and no neighbor rated it, so
the whole answer is popularity padding — which returns hotels 1 and 2, both
of which are keys of the query: the returned list does contain hotel ids
already rated by the user. -/
theorem C1_counterexample :
    (get_recommendations S1 Q1 2).map Recommendation.hotel_id = [1, 2] ∧ 1 ∈ keys Q1 := by
  constructor
  · norm_num [get_recommendations, S1, Q1, predict_ratings, find_similar_users, nNeighbors,
      distList, userVector, rowVector, sortL, insertSorted, lexLt, candidates, alookup,
      rat0, raters, simSum, weightedSum, predVal, round2, formatRecs, findHotel,
      mkRec, generateExplanation, hotelsIn, keys, highRated, meanPrice, popularRecs,
      topPopular, hotelStats, ratedHotelIds, ratingsFor, meanRating, popScore,
      List.filter_cons, List.filter_nil, List.filterMap_cons, List.filterMap_nil,
      List.find?_cons_of_pos, List.find?_cons_of_neg, List.find?_nil,
      List.dedup_cons_of_mem, List.dedup_cons_of_not_mem, List.dedup_nil, mkHotel]
  · norm_num [Q1, keys]

/-- C1 amended.  `get_recommendations` returns at most `n` items, and no
item of the personalized portion (`_format_recommendations` applied to the
predictions) carries a hotel id that is a key of the query; the popularity
padding and fallback, however, select hotels with no exclusion set, so the
combined list may repeat hotels the user already rated. -/
theorem C1_amended (s : RecState) (q : List (ℕ × ℚ)) (n : ℕ) :
    (get_recommendations s q n).length ≤ n ∧
    ∀ nbrs preds, find_similar_users s q = Except.ok nbrs →
      predict_ratings s q = Except.ok preds →
      ∀ r ∈ formatRecs s preds q, r.hotel_id ∉ keys q := by
  constructor
  · by_cases h1 : q.length < 2
    · rw [get_recommendations, if_pos h1]
      exact length_popularRecs_le s n
    · cases hpr : predict_ratings s q with
      | error e =>
          rw [get_recommendations, if_neg h1, hpr]
          exact length_popularRecs_le s n
      | ok preds =>
          rw [get_recommendations, if_neg h1, hpr]
          show (if preds.length < n then
              formatRecs s preds q ++ popularRecs s (n - preds.length)
            else formatRecs s ((sortL predLt preds).take n) q).length ≤ n
          by_cases h2 : preds.length < n
          · rw [if_pos h2, List.length_append]
            have hf := length_formatRecs_le s preds q
            have hpop := length_popularRecs_le s (n - preds.length)
            omega
          · rw [if_neg h2]
            exact le_trans (length_formatRecs_le s _ q) (List.length_take_le n _)
  · intro nbrs preds hn hp r hr
    rcases mem_formatRecs.1 hr with ⟨p, hpmem, ht, hht, rfl⟩
    have hpin : p.1 ∈ candidates s q :=
      ((mem_predict hn hp (h := p.1) (v := p.2)).1 (by simpa using hpmem)).1
    rcases List.mem_filter.1 hpin with ⟨-, hcond⟩
    have hnone : alookup q p.1 = none := by
      rcases hal : alookup q p.1 with _ | v
      · rfl
      · rw [hal] at hcond
        cases hcond
    have hid : (mkRec ht p.2 (generateExplanation s q ht)).hotel_id = p.1 :=
      findHotel_id hht
    rw [hid]
    exact alookup_eq_none.1 hnone

set_option maxRecDepth 4000 in
theorem S6_find : find_similar_users S6 Q6 = Except.ok [(1, 3/4)] := by
  norm_num [find_similar_users, nNeighbors, S6, Q6, distList, userVector, rowVector,
    rat0, alookup, sortL, insertSorted, lexLt]

theorem fract_c6a : Int.fract ((2223 : ℚ)/5) = 3/5 := by
  rw [Int.fract]
  norm_num

theorem fract_c6b : Int.fract ((4449 : ℚ)/10) = 9/10 := by
  rw [Int.fract]
  norm_num

set_option maxRecDepth 4000 in
theorem S6_predict : predict_ratings S6 Q6 = Except.ok [(1, 89/20), (2, 89/20)] := by
  rw [predict_ratings, S6_find]
  norm_num [candidates, S6, Q6, alookup, raters, simSum, weightedSum, predVal, round2,
    fract_c6a, fract_c6b,
    List.filter_cons, List.filter_nil, List.filterMap_cons, List.filterMap_nil]

/-- Witness for C1 amended on `S6`: the output is size-capped and the
personalized recommendations avoid the two rated hotels. -/
theorem C1_amended_witness :
    (get_recommendations S6 Q6 2).length ≤ 2 ∧
    ∀ r ∈ formatRecs S6 [(1, 89/20), (2, 89/20)] Q6, r.hotel_id ∉ keys Q6 := by
  have h := C1_amended S6 Q6 2
  exact ⟨h.1, h.2 [(1, 3/4)] [(1, 89/20), (2, 89/20)] S6_find S6_predict⟩

theorem S1_find : find_similar_users S1 Q1 = Except.ok [(1, 1)] := by
  norm_num [find_similar_users, nNeighbors, S1, Q1, distList, userVector, rowVector,
    rat0, alookup, sortL, insertSorted, lexLt]

theorem S1_predict : predict_ratings S1 Q1 = Except.ok [] := by
  rw [predict_ratings, S1_find]
  norm_num [candidates, S1, Q1, alookup, raters, simSum, weightedSum, predVal,
    List.filter_cons, List.filter_nil, List.filterMap_cons, List.filterMap_nil]

/-- C4.  Weighted-average prediction: every predicted entry for hotel `h`
requires positive similarity mass over the neighbors who rated `h`, and its
value is the two-decimal rounding of `Σ(sim_i × rating_i,h) / Σ(sim_i)`
summed over exactly the selected neighbors whose stored rating for `h` is
non-sentinel (`> 0`); a hotel none of the selected neighbors rated is absent
from the result rather than assigned 0. -/
theorem C4_weighted_average (s : RecState) (q nbrs preds : List (ℕ × ℚ))
    (hn : find_similar_users s q = Except.ok nbrs)
    (hp : predict_ratings s q = Except.ok preds) (h : ℕ) :
    (∀ v, (h, v) ∈ preds →
      0 < simSum s nbrs h ∧ v = round2 (weightedSum s nbrs h / simSum s nbrs h)) ∧
    (raters s nbrs h = [] → ∀ v, (h, v) ∉ preds) := by
  constructor
  · intro v hv
    rcases (mem_predict hn hp).1 hv with ⟨-, hpos, rfl⟩
    exact ⟨hpos, rfl⟩
  · intro hrat v hv
    rcases (mem_predict hn hp).1 hv with ⟨-, hpos, -⟩
    rw [simSum, hrat] at hpos
    simp at hpos

/-- Witness for C4: on `S6` hotel 1 is predicted `round2` of its weighted
average, and on `S1` hotel 3 (rated by no neighbor) is absent. -/
theorem C4_weighted_average_witness :
    (0 < simSum S6 [(1, 3/4)] 1 ∧
      (89/20 : ℚ) = round2 (weightedSum S6 [(1, 3/4)] 1 / simSum S6 [(1, 3/4)] 1)) ∧
    ∀ v, ((3 : ℕ), v) ∉ ([] : List (ℕ × ℚ)) := by
  constructor
  · exact (C4_weighted_average S6 Q6 [(1, 3/4)] [(1, 89/20), (2, 89/20)]
      S6_find S6_predict 1).1 (89/20) (by simp)
  · exact (C4_weighted_average S1 Q1 [(1, 1)] [] S1_find S1_predict 3).2
      (by norm_num [raters, S1, List.filter_cons, List.filter_nil])

/-- C5 counterexample.  On `S5` the query rates only hotels unknown to the
matrix, so every user's similarity is exactly 0; yet `find_similar_users`
returns a non-empty list containing a neighbor with similarity 0 — it
neither filters out non-positive scores nor returns an empty list. -/
theorem C5_counterexample :
    find_similar_users S5 Q5 = Except.ok [(1, 0)] ∧
    ∀ u ∈ S5.users, 1 - S5.cosDist (userVector S5 Q5) (rowVector S5 u) = 0 := by
  constructor
  · norm_num [find_similar_users, nNeighbors, S5, Q5, distList, userVector, rowVector,
      rat0, alookup, sortL, insertSorted, lexLt]
  · intro u hu
    norm_num [S5]

/-- C5 amended.  When `min(k, number_of_users - 1)` is non-zero (otherwise
scikit-learn raises), neighbor selection returns exactly that many entries —
never an empty list, and without any `score > 0` filtering — ordered by
descending similarity with ties broken by ascending user id. -/
theorem C5_amended (s : RecState) (q : List (ℕ × ℚ)) (hk : nNeighbors s ≠ 0) :
    ∃ l, find_similar_users s q = Except.ok l ∧
      l.length = nNeighbors s ∧
      l.Pairwise (fun a b => b.2 < a.2 ∨ (b.2 = a.2 ∧ a.1 ≤ b.1)) := by
  refine ⟨_, by rw [find_similar_users, if_neg hk], ?_, ?_⟩
  · rw [List.length_map, List.length_take, length_sortL, distList, List.length_map]
    have hle : nNeighbors s ≤ s.users.length :=
      le_trans (Nat.min_le_right _ _) (Nat.sub_le _ _)
    omega
  · rw [List.pairwise_map]
    have hs := pairwise_sortL_lex Prod.snd Prod.fst (distList s q)
    have ht := hs.sublist (List.take_sublist (nNeighbors s) _)
    refine ht.imp ?_
    rintro a b (hlt | ⟨heq, hle⟩)
    · exact Or.inl (by dsimp only; linarith)
    · exact Or.inr ⟨by dsimp only; rw [heq], hle⟩

/-- Witness for C5 amended on `S5`: one neighbor is returned
(`min(5, 2 - 1) = 1`), sorted. -/
theorem C5_amended_witness :
    nNeighbors S5 ≠ 0 ∧
    ∃ l, find_similar_users S5 Q5 = Except.ok l ∧
      l.length = nNeighbors S5 ∧
      l.Pairwise (fun a b => b.2 < a.2 ∨ (b.2 = a.2 ∧ a.1 ≤ b.1)) :=
  ⟨by norm_num [nNeighbors, S5], C5_amended S5 Q5 (by norm_num [nNeighbors, S5])⟩

theorem pairwise_sortL_pred (l : List (ℕ × ℚ)) :
    (sortL predLt l).Pairwise (lexLe (fun p => -p.2) Prod.fst) :=
  pairwise_sortL predLt _ (fun a b h => lexLt_le _ _ a b h)
    (fun a b h => not_lexLt_le _ _ a b h) (lexLe_trans _ _) l

/-- C6 counterexample.  On `S6`, hotels 1 and 2 have unrounded predictions
4.446 and 4.449, which both round to 4.45; the returned order is `[1, 2]`
although the unrounded values demand `[2, 1]` — the ranking is driven by the
ROUNDED value (ties then fall back to candidate order), not by the unrounded
one. -/
theorem C6_counterexample :
    find_similar_users S6 Q6 = Except.ok [(1, 3/4)] ∧
    (get_recommendations S6 Q6 2).map Recommendation.hotel_id = [1, 2] ∧
    predVal S6 [(1, 3/4)] 1 = 4446/1000 ∧ predVal S6 [(1, 3/4)] 2 = 4449/1000 ∧
    ((4446 : ℚ)/1000 < 4449/1000) := by
  refine ⟨S6_find, ?_, ?_, ?_, by norm_num⟩
  · rw [get_recommendations, if_neg (by norm_num [Q6] : ¬ (Q6.length < 2)), S6_predict]
    norm_num [formatRecs, sortL, insertSorted, predLt, lexLt, findHotel, mkRec,
      generateExplanation, hotelsIn, keys, highRated, meanPrice, S6, Q6, mkHotel,
      List.filter_cons, List.filter_nil, List.filterMap_cons, List.filterMap_nil,
      List.find?_cons_of_pos, List.find?_cons_of_neg]
  · norm_num [predVal, weightedSum, simSum, raters, S6,
      List.filter_cons, List.filter_nil]
  · norm_num [predVal, weightedSum, simSum, raters, S6,
      List.filter_cons, List.filter_nil]

/-- C6 amended.  Ranking is driven by the two-decimal ROUNDED predicted
value: when at least `n` predictions exist the output is sorted by rounded
value descending with ties in ascending hotel-id (candidate enumeration)
order; when fewer than `n` predictions exist the personalized portion is
emitted unsorted, in candidate order, followed by the popularity padding. -/
theorem C6_rounded_ranking (s : RecState) (q : List (ℕ × ℚ)) (n : ℕ)
    (preds : List (ℕ × ℚ)) (hq : ¬ q.length < 2)
    (hp : predict_ratings s q = Except.ok preds) :
    (n ≤ preds.length →
      (get_recommendations s q n).Pairwise (fun a b =>
        b.predicted_rating < a.predicted_rating ∨
        (a.predicted_rating = b.predicted_rating ∧ a.hotel_id ≤ b.hotel_id))) ∧
    (preds.length < n →
      get_recommendations s q n =
        formatRecs s preds q ++ popularRecs s (n - preds.length)) := by
  constructor
  · intro hn
    rw [get_recommendations, if_neg hq, hp]
    show (if preds.length < n then
        formatRecs s preds q ++ popularRecs s (n - preds.length)
      else formatRecs s ((sortL predLt preds).take n) q).Pairwise _
    rw [if_neg (not_lt.2 hn)]
    have hsorted := (pairwise_sortL_pred preds).sublist (List.take_sublist n _)
    rw [formatRecs, List.pairwise_filterMap]
    refine hsorted.imp ?_
    rintro a b hab r1 hr1 r2 hr2
    rcases Option.map_eq_some'.1 hr1 with ⟨ht1, hht1, rfl⟩
    rcases Option.map_eq_some'.1 hr2 with ⟨ht2, hht2, rfl⟩
    have hid1 : ht1.hotel_id = a.1 := findHotel_id hht1
    have hid2 : ht2.hotel_id = b.1 := findHotel_id hht2
    rcases hab with hlt | ⟨heq, hle⟩
    · refine Or.inl ?_
      show b.2 < a.2
      have : -a.2 < -b.2 := hlt
      linarith
    · refine Or.inr ⟨?_, ?_⟩
      · show a.2 = b.2
        have : -a.2 = -b.2 := heq
        linarith
      · show ht1.hotel_id ≤ ht2.hotel_id
        rw [hid1, hid2]
        exact hle
  · intro hn
    rw [get_recommendations, if_neg hq, hp]
    show (if preds.length < n then
        formatRecs s preds q ++ popularRecs s (n - preds.length)
      else formatRecs s ((sortL predLt preds).take n) q) = _
    rw [if_pos hn]

/-- Witness for C6 amended on `S6` with `n = 2`: two predictions exist and
the output is sorted by rounded value with the id tie-break. -/
theorem C6_rounded_ranking_witness :
    (2 ≤ ([((1 : ℕ), (89/20 : ℚ)), (2, 89/20)]).length) ∧
    (get_recommendations S6 Q6 2).Pairwise (fun a b =>
      b.predicted_rating < a.predicted_rating ∨
      (a.predicted_rating = b.predicted_rating ∧ a.hotel_id ≤ b.hotel_id)) :=
  ⟨by norm_num,
    (C6_rounded_ranking S6 Q6 2 [(1, 89/20), (2, 89/20)] (by norm_num [Q6])
      S6_predict).1 (by norm_num)⟩

theorem simSum_nonneg {s : RecState} {nbrs : List (ℕ × ℚ)} (h : ℕ)
    (hsim : ∀ p ∈ nbrs, 0 ≤ p.2) : 0 ≤ simSum s nbrs h := by
  apply List.sum_nonneg
  intro x hx
  rcases List.mem_map.1 hx with ⟨p, hp, rfl⟩
  exact hsim p (List.mem_filter.1 hp).1

theorem sum_map_const_mul (c : ℚ) (l : List (ℕ × ℚ)) :
    (l.map (fun p => c * p.2)).sum = c * (l.map Prod.snd).sum := by
  induction l with
  | nil => simp
  | cons x xs ih => simp [ih, mul_add]

theorem weightedSum_bounds {s : RecState} {nbrs : List (ℕ × ℚ)} (h : ℕ)
    (hsim : ∀ p ∈ nbrs, 0 ≤ p.2)
    (hcell : ∀ u h2, s.cell u h2 = 0 ∨ (1 ≤ s.cell u h2 ∧ s.cell u h2 ≤ 5)) :
    simSum s nbrs h ≤ weightedSum s nbrs h ∧
    weightedSum s nbrs h ≤ 5 * simSum s nbrs h := by
  have hfacts : ∀ p ∈ raters s nbrs h,
      0 ≤ p.2 ∧ 1 ≤ s.cell p.1 h ∧ s.cell p.1 h ≤ 5 := by
    intro p hp
    have hpr := List.mem_filter.1 hp
    have hpos : 0 < s.cell p.1 h := of_decide_eq_true hpr.2
    rcases hcell p.1 h with h0 | ⟨h1, h5⟩
    · rw [h0] at hpos
      exact absurd hpos (lt_irrefl 0)
    · exact ⟨hsim p hpr.1, h1, h5⟩
  constructor
  · apply List.sum_le_sum
    intro p hp
    rcases hfacts p hp with ⟨hs0, h1, -⟩
    nlinarith
  · rw [weightedSum, simSum, ← sum_map_const_mul]
    apply List.sum_le_sum
    intro p hp
    rcases hfacts p hp with ⟨hs0, -, h5⟩
    nlinarith

/-- C9.  If every non-sentinel matrix rating lies in `[1, 5]` (and cosine
distances are at most 1, as they are for the non-negative rating vectors of
this matrix, so similarity weights are non-negative), then every hotel that
receives a prediction has its unrounded predicted value in `[1, 5]`: the
prediction is a convex combination of the raters' stored ratings. -/
theorem C9_prediction_range (s : RecState) (q nbrs preds : List (ℕ × ℚ))
    (hn : find_similar_users s q = Except.ok nbrs)
    (hp : predict_ratings s q = Except.ok preds)
    (hcell : ∀ u h2, s.cell u h2 = 0 ∨ (1 ≤ s.cell u h2 ∧ s.cell u h2 ≤ 5))
    (hdist : ∀ v w, s.cosDist v w ≤ 1)
    (h : ℕ) (v : ℚ) (hv : (h, v) ∈ preds) :
    1 ≤ predVal s nbrs h ∧ predVal s nbrs h ≤ 5 := by
  have hsim : ∀ p ∈ nbrs, 0 ≤ p.2 := by
    intro p hp2
    rcases mem_nbrs_sim hn hp2 with ⟨u, -, rfl⟩
    have hd := hdist (userVector s q) (rowVector s u)
    dsimp only
    linarith
  rcases (mem_predict hn hp).1 hv with ⟨-, hpos, -⟩
  obtain ⟨hlo, hhi⟩ := weightedSum_bounds h hsim hcell
  constructor
  · rw [predVal, le_div_iff₀ hpos]
    linarith
  · rw [predVal, div_le_iff₀ hpos]
    linarith

/-- Witness for C9 on `S6`: hotel 1's unrounded prediction lies in `[1, 5]`. -/
theorem C9_prediction_range_witness :
    (∀ u h2, S6.cell u h2 = 0 ∨ (1 ≤ S6.cell u h2 ∧ S6.cell u h2 ≤ 5)) ∧
    (∀ v w, S6.cosDist v w ≤ 1) ∧
    (1 ≤ predVal S6 [(1, 3/4)] 1 ∧ predVal S6 [(1, 3/4)] 1 ≤ 5) := by
  have hcell : ∀ u h2, S6.cell u h2 = 0 ∨ (1 ≤ S6.cell u h2 ∧ S6.cell u h2 ≤ 5) := by
    intro u h2
    simp only [S6]
    split_ifs <;> norm_num
  have hdist : ∀ v w, S6.cosDist v w ≤ 1 := by
    intro v w
    simp only [S6]
    split_ifs <;> norm_num
  exact ⟨hcell, hdist,
    C9_prediction_range S6 Q6 [(1, 3/4)] [(1, 89/20), (2, 89/20)] S6_find S6_predict
      hcell hdist 1 (89/20) (by simp)⟩

/-- C10.  Every record of the popularity fallback carries as
`predicted_rating` the hotel's arithmetic-mean rating over the whole rating
table rounded to two decimals — not its popularity score — and its
explanation embeds that very same rounded mean. -/
theorem C10_popular_fields (s : RecState) (n : ℕ) (r : Recommendation)
    (hr : r ∈ popularRecs s n) :
    r.predicted_rating = round2 (meanRating s r.hotel_id) ∧
    r.explanation = Explanation.popular (round2 (meanRating s r.hotel_id)) := by
  rcases mem_popularRecs.1 hr with ⟨st, hst, ht, hht, rfl⟩
  rw [topPopular] at hst
  have hstats : st ∈ hotelStats s :=
    (mem_sortL _ _ _).1 (List.mem_of_mem_take hst)
  rcases List.mem_map.1 hstats with ⟨h0, hh0, rfl⟩
  have hid : (mkRec ht (round2 (meanRating s h0)) (Explanation.popular (round2 (meanRating s h0)))).hotel_id = h0 :=
    findHotel_id hht
  rw [hid]
  exact ⟨rfl, rfl⟩

/-- Witness for C10 on `S1`: hotel 1's popular record shows `round2` of its
mean rating 4. -/
theorem C10_popular_fields_witness :
    mkRec (mkHotel 1) 4 (Explanation.popular 4) ∈ popularRecs S1 2 ∧
    (mkRec (mkHotel 1) 4 (Explanation.popular 4)).predicted_rating =
      round2 (meanRating S1 (mkRec (mkHotel 1) 4 (Explanation.popular 4)).hotel_id) := by
  have hmem : mkRec (mkHotel 1) 4 (Explanation.popular 4) ∈ popularRecs S1 2 := by
    norm_num [popularRecs, topPopular, hotelStats, ratedHotelIds, ratingsFor, meanRating,
      popScore, round2, S1, sortL, insertSorted, lexLt, findHotel, mkRec, mkHotel,
      List.filter_cons, List.filter_nil, List.filterMap_cons, List.filterMap_nil,
      List.dedup_cons_of_mem, List.dedup_cons_of_not_mem,
      List.find?_cons_of_pos, List.find?_cons_of_neg]
  exact ⟨hmem, (C10_popular_fields S1 2 _ hmem).1⟩

theorem sumOver_sq_nonneg (ch : List ℕ) (f : ℕ → ℚ) :
    0 ≤ sumOver ch (fun h => f h * f h) := by
  apply List.sum_nonneg
  intro x hx
  rcases List.mem_map.1 hx with ⟨h, -, rfl⟩
  exact mul_self_nonneg (f h)

theorem sumOver_cauchy_schwarz (ch : List ℕ) (f g : ℕ → ℚ) :
    sumOver ch (fun h => f h * g h) * sumOver ch (fun h => f h * g h) ≤
      sumOver ch (fun h => f h * f h) * sumOver ch (fun h => g h * g h) := by
  induction ch with
  | nil => simp [sumOver]
  | cons a l ih =>
      have hB : 0 ≤ sumOver l (fun h => f h * f h) := sumOver_sq_nonneg l f
      have hC : 0 ≤ sumOver l (fun h => g h * g h) := sumOver_sq_nonneg l g
      simp only [sumOver, List.map_cons, List.sum_cons] at ih hB hC ⊢
      rcases eq_or_lt_of_le hC with hC0 | hC0
      · have hA : (l.map (fun h => f h * g h)).sum = 0 := by
          nlinarith [mul_self_nonneg ((l.map fun h => f h * g h).sum)]
        rw [hA]
        nlinarith [mul_nonneg hB (mul_self_nonneg (g a)),
          mul_nonneg (mul_self_nonneg (f a)) hC]
      · have hCE : 0 ≤ (l.map (fun h => g h * g h)).sum *
            ((f a * f a + (l.map fun h => f h * f h).sum) *
              (g a * g a + (l.map fun h => g h * g h).sum) -
             (f a * g a + (l.map fun h => f h * g h).sum) *
              (f a * g a + (l.map fun h => f h * g h).sum)) := by
          nlinarith [sq_nonneg (f a * (l.map fun h => g h * g h).sum -
              g a * (l.map fun h => f h * g h).sum),
            mul_nonneg (add_nonneg (mul_self_nonneg (g a)) (le_of_lt hC0))
              (sub_nonneg.2 ih)]
        nlinarith [hCE, hC0]

/-- C8 counterexample: two users with perfectly anti-correlated ratings over
their two common hotels; `pearson_correlation` returns −1 — the correlation
is handed back raw, with no clipping into `[0, 1]`.  (`sq64` is the square
root at the only point evaluated here: √64 = 8.) -/
theorem C8_counterexample :
    pearson_correlation sq64 [(0, 1), (1, 5)] [(0, 5), (1, 1)] = -1 ∧
    ¬ ((0 : ℚ) ≤ -1) := by
  constructor
  · norm_num [pearson_correlation, pearsonNum, pearsonDen1, pearsonDen2, chMean, chCount,
      commonHotels, keys, sumOver, rat0, alookup, sq64,
      List.filter_cons, List.filter_nil,
      List.dedup_cons_of_mem, List.dedup_cons_of_not_mem]
  · norm_num

/-- C8 amended.  Cosine (explicitly clipped by `max(0.0, ...)`), the
Euclidean-derived similarity and Jaccard always lie in `[0, 1]`;
`pearson_correlation`, however, is returned without clipping — it lies in
`[-1, 1]` and can be negative.  The hypotheses say that `sqrt` behaves as a
genuine non-negative square root at the points where each function
evaluates it. -/
theorem C8_similarity_bounds (sqrt : ℚ → ℚ) (q1 q2 : List (ℕ × ℚ)) (t : ℚ)
    (hc1 : 0 ≤ sqrt (cosNorm1 q1 q2))
    (hc1e : sqrt (cosNorm1 q1 q2) * sqrt (cosNorm1 q1 q2) = cosNorm1 q1 q2)
    (hc2 : 0 ≤ sqrt (cosNorm2 q1 q2))
    (hc2e : sqrt (cosNorm2 q1 q2) * sqrt (cosNorm2 q1 q2) = cosNorm2 q1 q2)
    (he : 0 ≤ sqrt (euclidSq q1 q2))
    (hp : 0 ≤ sqrt (pearsonDen1 q1 q2 * pearsonDen2 q1 q2))
    (hpe : sqrt (pearsonDen1 q1 q2 * pearsonDen2 q1 q2) *
      sqrt (pearsonDen1 q1 q2 * pearsonDen2 q1 q2) =
        pearsonDen1 q1 q2 * pearsonDen2 q1 q2) :
    (0 ≤ cosine_similarity_users sqrt q1 q2 ∧ cosine_similarity_users sqrt q1 q2 ≤ 1) ∧
    (0 ≤ euclidean_similarity sqrt q1 q2 ∧ euclidean_similarity sqrt q1 q2 ≤ 1) ∧
    (0 ≤ jaccard_similarity q1 q2 t ∧ jaccard_similarity q1 q2 t ≤ 1) ∧
    (-1 ≤ pearson_correlation sqrt q1 q2 ∧ pearson_correlation sqrt q1 q2 ≤ 1) := by
  refine ⟨?_, ?_, ?_, ?_⟩
  · rw [cosine_similarity_users]
    by_cases hch : commonHotels q1 q2 = []
    · rw [if_pos hch]
      norm_num
    · rw [if_neg hch]
      refine ⟨le_max_left 0 _, max_le (by norm_num) ?_⟩
      have hcs : cosDot q1 q2 * cosDot q1 q2 ≤ cosNorm1 q1 q2 * cosNorm2 q1 q2 :=
        sumOver_cauchy_schwarz (commonHotels q1 q2) (rat0 q1) (rat0 q2)
      rcases eq_or_lt_of_le (mul_nonneg hc1 hc2) with hD | hD
      · rw [← hD, div_zero]
        norm_num
      · rw [div_le_one hD]
        nlinarith [hcs, hc1e, hc2e,
          sq_nonneg (cosDot q1 q2 + sqrt (cosNorm1 q1 q2) * sqrt (cosNorm2 q1 q2)),
          sq_nonneg (cosDot q1 q2 - sqrt (cosNorm1 q1 q2) * sqrt (cosNorm2 q1 q2))]
  · rw [euclidean_similarity]
    by_cases hch : commonHotels q1 q2 = []
    · rw [if_pos hch]
      norm_num
    · rw [if_neg hch]
      have h1 : (0 : ℚ) < 1 + sqrt (euclidSq q1 q2) := by linarith
      refine ⟨le_of_lt (div_pos one_pos h1), ?_⟩
      rw [div_le_one h1]
      linarith
  · rw [jaccard_similarity]
    by_cases hu : ((likedSet q1 t) ∪ (likedSet q2 t)).card = 0
    · rw [if_pos hu]
      norm_num
    · rw [if_neg hu]
      have hpos : (0 : ℚ) < (((likedSet q1 t) ∪ (likedSet q2 t)).card : ℚ) := by
        exact_mod_cast Nat.pos_of_ne_zero hu
      refine ⟨div_nonneg (by positivity) (le_of_lt hpos), ?_⟩
      rw [div_le_one hpos]
      exact_mod_cast Finset.card_le_card Finset.inter_subset_union
  · rw [pearson_correlation]
    by_cases hlen : (commonHotels q1 q2).length < 2
    · rw [if_pos hlen]
      norm_num
    · rw [if_neg hlen]
      have hcs : pearsonNum q1 q2 * pearsonNum q1 q2 ≤
          pearsonDen1 q1 q2 * pearsonDen2 q1 q2 :=
        sumOver_cauchy_schwarz (commonHotels q1 q2)
          (fun h => rat0 q1 h - chMean q1 q2 q1) (fun h => rat0 q2 h - chMean q1 q2 q2)
      rcases eq_or_lt_of_le hp with hz | hz
      · rw [← hz, div_zero]
        norm_num
      · constructor
        · rw [le_div_iff₀ hz]
          nlinarith [hcs, hpe, sq_nonneg (pearsonNum q1 q2 +
            sqrt (pearsonDen1 q1 q2 * pearsonDen2 q1 q2))]
        · rw [div_le_one hz]
          nlinarith [hcs, hpe, sq_nonneg (pearsonNum q1 q2 -
            sqrt (pearsonDen1 q1 q2 * pearsonDen2 q1 q2))]

/-- Witness for C8 amended: the users `{0: 3, 1: 4}` and `{0: 4, 1: 3}` with
threshold 3.5; `sqW` is the genuine square root at the three evaluated
points (25, 1/4, 2 — the last only needs non-negativity). -/
theorem C8_similarity_bounds_witness :
    ((0 ≤ sqW (cosNorm1 QW1 QW2)) ∧
      (sqW (cosNorm1 QW1 QW2) * sqW (cosNorm1 QW1 QW2) = cosNorm1 QW1 QW2) ∧
      (sqW (pearsonDen1 QW1 QW2 * pearsonDen2 QW1 QW2) *
        sqW (pearsonDen1 QW1 QW2 * pearsonDen2 QW1 QW2) =
          pearsonDen1 QW1 QW2 * pearsonDen2 QW1 QW2)) ∧
    (0 ≤ cosine_similarity_users sqW QW1 QW2 ∧ cosine_similarity_users sqW QW1 QW2 ≤ 1) ∧
    (0 ≤ euclidean_similarity sqW QW1 QW2 ∧ euclidean_similarity sqW QW1 QW2 ≤ 1) ∧
    (0 ≤ jaccard_similarity QW1 QW2 (7/2) ∧ jaccard_similarity QW1 QW2 (7/2) ≤ 1) ∧
    (-1 ≤ pearson_correlation sqW QW1 QW2 ∧ pearson_correlation sqW QW1 QW2 ≤ 1) := by
  have hnorm1 : cosNorm1 QW1 QW2 = 25 := by
    norm_num [cosNorm1, sumOver, commonHotels, keys, rat0, alookup, QW1, QW2,
      List.filter_cons, List.filter_nil, List.dedup_cons_of_mem, List.dedup_cons_of_not_mem]
  have hnorm2 : cosNorm2 QW1 QW2 = 25 := by
    norm_num [cosNorm2, sumOver, commonHotels, keys, rat0, alookup, QW1, QW2,
      List.filter_cons, List.filter_nil, List.dedup_cons_of_mem, List.dedup_cons_of_not_mem]
  have hd1 : pearsonDen1 QW1 QW2 = 1/2 := by
    norm_num [pearsonDen1, chMean, chCount, sumOver, commonHotels, keys, rat0, alookup,
      QW1, QW2, List.filter_cons, List.filter_nil,
      List.dedup_cons_of_mem, List.dedup_cons_of_not_mem]
  have hd2 : pearsonDen2 QW1 QW2 = 1/2 := by
    norm_num [pearsonDen2, chMean, chCount, sumOver, commonHotels, keys, rat0, alookup,
      QW1, QW2, List.filter_cons, List.filter_nil,
      List.dedup_cons_of_mem, List.dedup_cons_of_not_mem]
  refine ⟨⟨?_, ?_, ?_⟩, ?_⟩
  · rw [hnorm1]
    norm_num [sqW]
  · rw [hnorm1]
    norm_num [sqW]
  · rw [hd1, hd2]
    norm_num [sqW]
  · exact C8_similarity_bounds sqW QW1 QW2 (7/2)
      (by rw [hnorm1]; norm_num [sqW]) (by rw [hnorm1]; norm_num [sqW])
      (by rw [hnorm2]; norm_num [sqW]) (by rw [hnorm2]; norm_num [sqW])
      (by
        have heu : euclidSq QW1 QW2 = 2 := by
          norm_num [euclidSq, sumOver, commonHotels, keys, rat0, alookup, QW1, QW2,
            List.filter_cons, List.filter_nil,
            List.dedup_cons_of_mem, List.dedup_cons_of_not_mem]
        rw [heu]
        norm_num [sqW])
      (by rw [hd1, hd2]; norm_num [sqW]) (by rw [hd1, hd2]; norm_num [sqW])

end HotelRec
